import Mathlib

set_option maxHeartbeats 1000000
set_option maxRecDepth 4000

/-!
Verification development for the Caido "Replay Tab Auto-Renamer" plugin
(`packages/frontend/src/index.ts`).  The plugin's pure core —
`generateTabName`, `parseRawRequest` and the per-cycle logic of
`checkAndRenameReplayTabs` — is embedded shallowly.  JavaScript strings are
modelled as `List Char` (one element per character; the code only ever
manipulates BMP text, where JS UTF-16 indexing and per-character indexing
coincide).  External effects (the GraphQL detail fetch, `atob`, the rename
RPC and evaluation of the user-supplied naming function) are modelled as
oracle fields of an environment record, so that theorems quantify over all
possible outcomes of those calls.
-/

namespace TabRenamer

/-- JavaScript string, one entry per character. -/
abbrev JSStr := List Char

/-- Character class of the JavaScript regular-expression escape `\\s`
(the whitespace class used by `String.prototype.trim` and `split(/\\s+/)`). -/
def isJsWhitespace (c : Char) : Bool :=
  decide (c = ' ' ∨ c = '\t' ∨ c = '\n' ∨ c = '\r' ∨ c = '\x0B' ∨ c = '\x0C' ∨
    c = '\u00A0' ∨ c = '\u1680' ∨ ('\u2000' ≤ c ∧ c ≤ '\u200A') ∨
    c = '\u2028' ∨ c = '\u2029' ∨ c = '\u202F' ∨ c = '\u205F' ∨
    c = '\u3000' ∨ c = '\uFEFF')

/-- JavaScript line terminators: the characters NOT matched by `.` in a
regular expression without the `s` flag. -/
def isLineTerminator (c : Char) : Bool :=
  decide (c = '\n' ∨ c = '\r' ∨ c = '\u2028' ∨ c = '\u2029')

/-- `String.prototype.trim`: strip leading and trailing whitespace. -/
def jsTrim (l : JSStr) : JSStr :=
  ((l.dropWhile isJsWhitespace).reverse.dropWhile isJsWhitespace).reverse

/-- First pass of line normalization: `raw.replace(/\r\n/g, '\n')`,
replacing each (non-overlapping, left-to-right) CRLF pair by LF. -/
def stripCRLF : JSStr → JSStr
  | [] => []
  | [c] => [c]
  | c :: d :: rest =>
    if c = '\r' ∧ d = '\n' then '\n' :: stripCRLF rest
    else c :: stripCRLF (d :: rest)

/-- Second pass: `.replace(/\r/g, '\n')` applied characterwise. -/
def crToLf (c : Char) : Char := if c = '\r' then '\n' else c

/-- `raw.replace(/\r\n/g, '\n').replace(/\r/g, '\n')`. -/
def normalizeNewlines (l : JSStr) : JSStr := (stripCRLF l).map crToLf

/-- `str.split('\n')`: JavaScript split on a one-character separator
(always returns at least one piece; `""` splits to `[""]`). -/
def splitLines : JSStr → List JSStr
  | [] => [[]]
  | c :: rest =>
    if c = '\n' then [] :: splitLines rest
    else
      match splitLines rest with
      | [] => [[c]]
      | h :: t => (c :: h) :: t

/-- `str.split(/\s+/)`: pieces between maximal whitespace runs.  A leading
run contributes a leading empty piece and a trailing run a trailing empty
piece, exactly as in JavaScript. -/
def splitWs : JSStr → List JSStr
  | [] => [[]]
  | c :: rest =>
    if isJsWhitespace c then
      match rest with
      | [] => [[], []]
      | d :: _ =>
        if isJsWhitespace d then splitWs rest
        else [] :: splitWs rest
    else
      match splitWs rest with
      | [] => [[c]]
      | h :: t => (c :: h) :: t

/-- Character class `[a-zA-Z0-9\/\-\_\.]` kept by the second `replace` in
the default naming algorithm. -/
def allowedChar (c : Char) : Bool :=
  decide (('a' ≤ c ∧ c ≤ 'z') ∨ ('A' ≤ c ∧ c ≤ 'Z') ∨ ('0' ≤ c ∧ c ≤ '9') ∨
    c = '/' ∨ c = '-' ∨ c = '_' ∨ c = '.')

/-- `path.replace(/[?#].*$/, '')`.  Without the `m`/`s` flags, `$` matches
only at end of input and `.` excludes line terminators, so the (single)
replacement fires at the first `?` or `#` that has no line terminator
anywhere after it, deleting from there to the end; if every `?`/`#` is
followed by a later line terminator, nothing is removed. -/
def jsStripQF : JSStr → JSStr
  | [] => []
  | c :: rest =>
    if (decide (c = '?' ∨ c = '#')) && rest.all (fun d => !isLineTerminator d) then []
    else c :: jsStripQF rest

/-- `const cleanPath = path.replace(/[?#].*$/, '').replace(/[^a-zA-Z0-9\/\-\_\.]/g, '')`. -/
def cleanPath (path : JSStr) : JSStr := (jsStripQF path).filter allowedChar

/-- The built-in default naming algorithm of `generateTabName`
(`index.ts` lines 153-162). -/
def defaultTabName (method path : JSStr) : JSStr :=
  let cp := cleanPath path
  let tabName := method ++ ' ' :: cp
  if tabName.length > 30 then
    method ++ ' ' :: (cp.take (30 - method.length - 4) ++ ('.' :: '.' :: '.' :: []))
  else tabName

/-- Result record of `parseRawRequest`. -/
structure ParsedRequest where
  method : JSStr
  path : JSStr
  host : JSStr
deriving DecidableEq

/-- Test applied to each (trimmed) line by the Host-header scan:
`trimmedLine.toLowerCase().startsWith('host:')`.  `Char.toLower` performs
the ASCII case mapping, which is all the comparison against `"host:"`
can ever exercise. -/
def isHostLine (t : JSStr) : Bool :=
  decide ((t.map Char.toLower).take 5 = ('h' :: 'o' :: 's' :: 't' :: ':' :: []))

/-- The Host-header loop of `parseRawRequest` (`index.ts` lines 201-209):
scan the lines in order; on the first line whose trimmed form starts
case-insensitively with `host:`, return the trimmed remainder after the
colon; default to the empty string. -/
def findHost : List JSStr → JSStr
  | [] => []
  | line :: rest =>
    let t := jsTrim line
    if isHostLine t then jsTrim (t.drop 5)
    else findHost rest

/-- `parseRawRequest` (`index.ts` lines 165-222).  The embedding is total;
the JS `try`/`catch` that converts any internal exception into `null` is
reflected by the `Option` result. -/
def parseRawRequest (raw : JSStr) : Option ParsedRequest :=
  if raw.isEmpty then none
  else
    let lines := splitLines (normalizeNewlines raw)
    if lines.isEmpty then none
    else
      match lines.find? (fun l => !(jsTrim l).isEmpty) with
      | none => none
      | some firstLine =>
        let requestLine := jsTrim firstLine
        let parts := splitWs requestLine
        if parts.length < 2 then none
        else
          let method := parts.getD 0 []
          let path := parts.getD 1 []
          let host := findHost lines
          if method.isEmpty || path.isEmpty then none
          else some ⟨method, path, host⟩

/-- Outcome of evaluating the user-supplied naming function at one call:
it may throw (also covering a `new Function` construction error), return a
non-string value, or return a string. -/
inductive CustomResult
  | throws
  | retNonString
  | retString (s : JSStr)
deriving DecidableEq

/-- Log events produced through `addLog`, abstracted from their formatted
message text. -/
inductive LogMsg
  | customError
  | usingDefault
  | noDetails (id : JSStr)
  | cannotParse (id : JSStr)
  | alreadyCorrect (id : JSStr)
  | renamed (id name : JSStr)
  | sessionError (id : JSStr)
  | noSessions
  | noNew
deriving DecidableEq

/-- Instrumented result of `generateTabName`: the returned name, the log
events it emitted, and — when the custom function was actually invoked —
the argument triple `(method, path, host)` it received. -/
structure GenResult where
  name : JSStr
  logs : List LogMsg
  customCall : Option (JSStr × JSStr × JSStr)
deriving DecidableEq

/-- `generateTabName` (`index.ts` lines 132-163).  `custom = none` models a
naming-function source that is empty after trimming (the custom branch is
not entered); `custom = some f` models a non-empty source whose evaluation
at given arguments behaves as `f`.  The `host` parameter is optional in
the source (`host?: string`) and is defaulted with `host || ''` before the
custom call. -/
def generateTabName (custom : Option (JSStr → JSStr → JSStr → CustomResult))
    (method path : JSStr) (host : Option JSStr) : GenResult :=
  match custom with
  | none => ⟨defaultTabName method path, [], none⟩
  | some f =>
    let hostArg := host.getD []
    match f method path hostArg with
    | .throws =>
      ⟨defaultTabName method path, [.customError, .usingDefault],
        some (method, path, hostArg)⟩
    | .retNonString => ⟨defaultTabName method path, [], some (method, path, hostArg)⟩
    | .retString s =>
      if (jsTrim s).isEmpty then ⟨defaultTabName method path, [], some (method, path, hostArg)⟩
      else ⟨jsTrim s, [], some (method, path, hostArg)⟩

/-- A replay session as returned by `sdk.replay.getSessions()`. -/
structure Session where
  id : JSStr
  name : JSStr
deriving DecidableEq

/-- The `activeEntry` record used by the sync loop: `entry.session?.name`
and `entry.raw` (base64 text; `none` models an absent field). -/
structure Entry where
  sessionName : Option JSStr
  raw : Option JSStr
deriving DecidableEq

/-- Environment of one sync cycle: the listing snapshot, the loaded known
set, and oracles for every external call a cycle makes.
`details` is the per-id outcome of `getSessionDetails`: `none` models the
function returning `null` (missing SDK or access token, or a storage-parse
error caught by the outer catch), and `some` covers every entry it can
return — including the hard-coded fallback entry it builds when the inner
GraphQL attempt throws, gets a non-ok response or a malformed body (see
`getSessionDetails` below, which refines this oracle).
`decode raw = none` models `atob` throwing on invalid base64;
`renameThrows id name = true` models `renameSession` throwing. -/
structure Env where
  sessions : List Session
  known : List JSStr
  details : JSStr → Option Entry
  decode : JSStr → Option JSStr
  custom : Option (JSStr → JSStr → JSStr → CustomResult)
  renameThrows : JSStr → JSStr → Bool

/-- `const currentName = entry.session?.name || session.name` — the `||`
falls back on a missing or empty entry name. -/
def currentNameOf (entry : Entry) (s : Session) : JSStr :=
  match entry.sessionName with
  | some n => if n.isEmpty then s.name else n
  | none => s.name

/-- Result of processing one new session inside the cycle's `for` loop:
log events, the argument pair of the `renameSession` call if one was
issued, and the custom-function call arguments if the generator invoked
the custom function. -/
structure StepResult where
  logs : List LogMsg
  renameCall : Option (JSStr × JSStr)
  customCall : Option (JSStr × JSStr × JSStr)
deriving DecidableEq

/-- Body of the per-session loop of `checkAndRenameReplayTabs`
(`index.ts` lines 305-345).  The surrounding `try`/`catch` makes every
outcome non-escaping: a thrown `atob` or `renameSession` only logs an
error for that session.  Note that line 323 calls
`generateTabName(requestInfo.method, requestInfo.path)` with no host
argument. -/
def processSession (env : Env) (s : Session) : StepResult :=
  match env.details s.id with
  | none => ⟨[.noDetails s.id], none, none⟩
  | some entry =>
    match entry.raw with
    | none => ⟨[.noDetails s.id], none, none⟩
    | some raw =>
      if raw.isEmpty then ⟨[.noDetails s.id], none, none⟩
      else
        match env.decode raw with
        | none => ⟨[.sessionError s.id], none, none⟩
        | some decoded =>
          match parseRawRequest decoded with
          | none => ⟨[.cannotParse s.id], none, none⟩
          | some info =>
            let gen := generateTabName env.custom info.method info.path none
            if currentNameOf entry s = gen.name then
              ⟨gen.logs ++ [.alreadyCorrect s.id], none, gen.customCall⟩
            else if env.renameThrows s.id gen.name then
              ⟨gen.logs ++ [.sessionError s.id], some (s.id, gen.name), gen.customCall⟩
            else
              ⟨gen.logs ++ [.renamed s.id gen.name], some (s.id, gen.name), gen.customCall⟩

/-- Observable outcome of one completed sync cycle: the argument of the
`saveKnownSessions` call (`none` when no save was performed), the list of
`renameSession` invocations in order, and the emitted log events. -/
structure CycleResult where
  savedKnown : Option (List JSStr)
  renames : List (JSStr × JSStr)
  logs : List LogMsg
deriving DecidableEq

/-- One cycle of `checkAndRenameReplayTabs` (`index.ts` lines 270-362),
given that the listing call itself succeeded (a throwing listing aborts
the cycle before any of this runs and saves nothing).  `savedKnown`
receives `Array.from(new Set(sessions.map(s => s.id)))` — membershipwise
the id list of the current snapshot. -/
def checkAndRenameReplayTabs (env : Env) : CycleResult :=
  if env.sessions.isEmpty then ⟨none, [], [.noSessions]⟩
  else
    let currentIds := env.sessions.map Session.id
    let newSessions := env.sessions.filter (fun s => !(env.known.contains s.id))
    if newSessions.isEmpty then ⟨some currentIds, [], [.noNew]⟩
    else
      let results := newSessions.map (fun s => processSession env s)
      ⟨some currentIds, results.filterMap StepResult.renameCall,
        results.flatMap StepResult.logs⟩

/-- Path cleaning as the spec's words describe it: drop everything from
the first `?` or `#` onward unconditionally, then filter.  Used only to
compare against the source-derived `cleanPath`. -/
def specStrip : JSStr → JSStr
  | [] => []
  | c :: rest => if c = '?' ∨ c = '#' then [] else c :: specStrip rest

/-- Spec-described cleaning, for comparison with `cleanPath`. -/
def specClean (path : JSStr) : JSStr := (specStrip path).filter allowedChar

/-- Outcome of the inner GraphQL attempt of `getSessionDetails`
(`index.ts` lines 234-255): the `fetch` call or `response.json()` may
throw (both land in the inner catch), the response may arrive non-ok, or
an ok JSON body yields `data.data?.replaySession?.activeEntry` (`none`
models a missing field, i.e. an empty or unexpected result shape). -/
inductive FetchOutcome
  | throws
  | notOk
  | ok (entry : Option Entry)
deriving DecidableEq

/-- Decoded text of the hard-coded fallback raw request of
`getSessionDetails`: `'GET /api/fallback HTTP/1.1\nHost: localhost\n\n'`. -/
def fallbackRawText : JSStr := "GET /api/fallback HTTP/1.1\nHost: localhost\n\n".data

/-- `btoa('GET /api/fallback HTTP/1.1\nHost: localhost\n\n')`, the base64
payload stored in the fallback entry (`index.ts` line 261). -/
def fallbackB64 : JSStr :=
  "R0VUIC9hcGkvZmFsbGJhY2sgSFRUUC8xLjEKSG9zdDogbG9jYWxob3N0Cgo=".data

/-- The synthetic entry built at `index.ts` lines 259-262 when the GraphQL
attempt did not produce an ok JSON response:
`{session: {name: 'Session ' + sessionId}, raw: btoa('GET /api/fallback ...')}`. -/
def fallbackEntry (sessionId : JSStr) : Entry :=
  ⟨some (("Session ".data) ++ sessionId), some fallbackB64⟩

/-- `getSessionDetails` (`index.ts` lines 224-268).  A missing SDK, a
missing access token, or a storage-parse error throws past the inner
`try` and is converted to `null` by the outer catch (`hasToken = false`
collapses these).  Otherwise: a thrown `fetch` or a malformed
(non-JSON) body lands in the inner catch and a non-ok response falls
through it — all three continue to the hard-coded fallback entry — while
an ok JSON response returns its (possibly missing) `activeEntry`. -/
def getSessionDetails (hasToken : Bool) (fetchRes : JSStr → FetchOutcome)
    (sessionId : JSStr) : Option Entry :=
  if hasToken then
    match fetchRes sessionId with
    | .ok entry => entry
    | .throws => some (fallbackEntry sessionId)
    | .notOk => some (fallbackEntry sessionId)
  else none

/-- Environment whose detail layer is the real `getSessionDetails` with a
GraphQL fetch that always throws, and whose `atob` behaves correctly on
the fallback payload: the transient fetch failure produces the fallback
entry, which is then parsed and renamed. -/
def envC1x : Env where
  sessions := [⟨"a".data, "old".data⟩]
  known := []
  details := fun i => getSessionDetails true (fun _ => FetchOutcome.throws) i
  decode := fun r => if r = fallbackB64 then some fallbackRawText else none
  custom := none
  renameThrows := fun _ _ => false

/-- Environment used to instantiate the skip half of the detail-fetch
claim: one new session whose ok-response entry has no raw payload. -/
def envC1 : Env where
  sessions := [⟨"a".data, "old".data⟩]
  known := []
  details := fun _ => some ⟨none, none⟩
  decode := fun _ => none
  custom := none
  renameThrows := fun _ _ => false

/-- The single session of `envC1`. -/
def sC1 : Session := ⟨"a".data, "old".data⟩

/-- Environment showing that ids absent from the current listing are
dropped from the persisted known set: `"a"` is known but not listed. -/
def envC3 : Env where
  sessions := [⟨"b".data, "nb".data⟩]
  known := ["a".data]
  details := fun _ => none
  decode := fun _ => none
  custom := none
  renameThrows := fun _ _ => false

/-- Environment where the known id `"a"` is still listed, used to witness
the amended monotonicity statement. -/
def envC3w : Env where
  sessions := [⟨"a".data, "n".data⟩]
  known := ["a".data]
  details := fun _ => none
  decode := fun _ => none
  custom := none
  renameThrows := fun _ _ => false

/-- Environment with a listed session that is already known, used to
instantiate the per-cycle persistence theorems. -/
def envC4 : Env where
  sessions := [⟨"a".data, "n".data⟩]
  known := ["a".data]
  details := fun _ => none
  decode := fun _ => none
  custom := none
  renameThrows := fun _ _ => false

/-- Environment whose single session decodes to `GET /foo` and is already
named `GET /foo`, so the candidate equals the current name. -/
def envC6 : Env where
  sessions := [⟨"a".data, "old".data⟩]
  known := []
  details := fun _ => some ⟨some ("GET /foo".data), some ("R".data)⟩
  decode := fun _ => some ("GET /foo HTTP/1.1\nHost: h\n".data)
  custom := none
  renameThrows := fun _ _ => false

/-- The single session of `envC6`. -/
def sC6 : Session := ⟨"a".data, "old".data⟩

/-- The entry served by `envC6.details`. -/
def entryC6 : Entry := ⟨some ("GET /foo".data), some ("R".data)⟩

/-- Environment with a throwing custom naming function and a raw request
carrying a non-empty Host header, used to show the custom function still
receives an empty host string. -/
def envC10 : Env where
  sessions := [⟨"a".data, "n".data⟩]
  known := []
  details := fun _ => some ⟨none, some ("R".data)⟩
  decode := fun _ => some ("GET /p HTTP/1.1\nHost: example.com\n".data)
  custom := some (fun _ _ _ => CustomResult.throws)
  renameThrows := fun _ _ => false

/-- The single session of `envC10`. -/
def sC10 : Session := ⟨"a".data, "n".data⟩

/-! ## Helper lemmas -/

theorem list_isEmpty_false {α : Type} (l : List α) (h : l ≠ []) : l.isEmpty = false := by
  cases l with
  | nil => exact absurd rfl h
  | cons a t => rfl

theorem dropWhile_eq_self_of_all_false (p : Char → Bool) (l : JSStr)
    (h : ∀ c ∈ l, p c = false) : l.dropWhile p = l := by
  cases l with
  | nil => rfl
  | cons a t =>
    rw [List.dropWhile_cons, if_neg]
    simp [h a (List.mem_cons_self a t)]

theorem jsTrim_eq_self_of_no_ws (l : JSStr) (h : ∀ c ∈ l, isJsWhitespace c = false) :
    jsTrim l = l := by
  unfold jsTrim
  rw [dropWhile_eq_self_of_all_false _ l h,
    dropWhile_eq_self_of_all_false _ l.reverse (fun c hc => h c (List.mem_reverse.mp hc)),
    List.reverse_reverse]

theorem stripCRLF_eq_self_of_no_cr : ∀ l : JSStr, (∀ c ∈ l, c ≠ '\r') → stripCRLF l = l
  | [], _ => rfl
  | [_], _ => rfl
  | c :: d :: rest, h => by
    have hc : c ≠ '\r' := h c (List.mem_cons_self c (d :: rest))
    have h2 : ∀ x ∈ d :: rest, x ≠ '\r' :=
      fun x hx => h x (List.mem_cons_of_mem c hx)
    simp only [stripCRLF]
    rw [if_neg (fun hcd => hc hcd.1)]
    exact congrArg (c :: ·) (stripCRLF_eq_self_of_no_cr (d :: rest) h2)

theorem map_crToLf_eq_self_of_no_cr (l : JSStr) (h : ∀ c ∈ l, c ≠ '\r') :
    l.map crToLf = l := by
  induction l with
  | nil => rfl
  | cons a t ih =>
    have ha : crToLf a = a := by
      unfold crToLf
      exact if_neg (h a (List.mem_cons_self a t))
    simp only [List.map_cons, ha, ih (fun c hc => h c (List.mem_cons_of_mem a hc))]

theorem normalizeNewlines_eq_self_of_no_cr (l : JSStr) (h : ∀ c ∈ l, c ≠ '\r') :
    normalizeNewlines l = l := by
  unfold normalizeNewlines
  rw [stripCRLF_eq_self_of_no_cr l h, map_crToLf_eq_self_of_no_cr l h]

theorem splitLines_eq_of_no_lf : ∀ l : JSStr, (∀ c ∈ l, c ≠ '\n') → splitLines l = [l]
  | [], _ => rfl
  | c :: rest, h => by
    have hc : c ≠ '\n' := h c (List.mem_cons_self c rest)
    simp only [splitLines]
    rw [if_neg hc, splitLines_eq_of_no_lf rest (fun x hx => h x (List.mem_cons_of_mem c hx))]

theorem splitWs_eq_of_no_ws : ∀ l : JSStr, (∀ c ∈ l, isJsWhitespace c = false) → splitWs l = [l]
  | [], _ => rfl
  | c :: rest, h => by
    have hc : isJsWhitespace c = false := h c (List.mem_cons_self c rest)
    simp only [splitWs, hc]
    rw [splitWs_eq_of_no_ws rest (fun x hx => h x (List.mem_cons_of_mem c hx))]
    simp

theorem jsStripQF_eq_specStrip : ∀ p : JSStr, (∀ c ∈ p, isLineTerminator c = false) →
    jsStripQF p = specStrip p
  | [], _ => rfl
  | c :: rest, h => by
    have hall : rest.all (fun d => !isLineTerminator d) = true := by
      rw [List.all_eq_true]
      intro d hd
      simp [h d (List.mem_cons_of_mem c hd)]
    have ih := jsStripQF_eq_specStrip rest (fun x hx => h x (List.mem_cons_of_mem c hx))
    simp only [jsStripQF, specStrip, hall, Bool.and_true, ih]
    by_cases hc : c = '?' ∨ c = '#' <;> simp [hc]

theorem cons_append_ne_nil (a : JSStr) (c : Char) (x : JSStr) : a ++ c :: x ≠ [] := by
  intro hx
  have := congrArg List.length hx
  simp at this

theorem defaultTabName_ne_nil (m p : JSStr) : defaultTabName m p ≠ [] := by
  unfold defaultTabName
  dsimp only
  split
  · exact cons_append_ne_nil m ' ' _
  · exact cons_append_ne_nil m ' ' _

/-! ## `processSession` characterization lemmas -/

theorem processSession_details_none (env : Env) (s : Session)
    (hd : env.details s.id = none) :
    processSession env s = ⟨[.noDetails s.id], none, none⟩ := by
  unfold processSession
  rw [hd]

theorem processSession_raw_none (env : Env) (s : Session) (entry : Entry)
    (hd : env.details s.id = some entry) (hr : entry.raw = none) :
    processSession env s = ⟨[.noDetails s.id], none, none⟩ := by
  simp only [processSession, hd, hr]

theorem processSession_raw_empty (env : Env) (s : Session) (entry : Entry)
    (hd : env.details s.id = some entry) (hr : entry.raw = some []) :
    processSession env s = ⟨[.noDetails s.id], none, none⟩ := by
  simp only [processSession, hd, hr]
  rfl

theorem processSession_of_parse (env : Env) (s : Session) (entry : Entry)
    (raw decoded : JSStr) (info : ParsedRequest)
    (hd : env.details s.id = some entry) (hr : entry.raw = some raw)
    (he : raw.isEmpty = false) (hdec : env.decode raw = some decoded)
    (hp : parseRawRequest decoded = some info) :
    processSession env s =
      (if currentNameOf entry s = (generateTabName env.custom info.method info.path none).name then
        ⟨(generateTabName env.custom info.method info.path none).logs ++ [.alreadyCorrect s.id],
          none, (generateTabName env.custom info.method info.path none).customCall⟩
      else if env.renameThrows s.id (generateTabName env.custom info.method info.path none).name then
        ⟨(generateTabName env.custom info.method info.path none).logs ++ [.sessionError s.id],
          some (s.id, (generateTabName env.custom info.method info.path none).name),
          (generateTabName env.custom info.method info.path none).customCall⟩
      else
        ⟨(generateTabName env.custom info.method info.path none).logs ++
            [.renamed s.id (generateTabName env.custom info.method info.path none).name],
          some (s.id, (generateTabName env.custom info.method info.path none).name),
          (generateTabName env.custom info.method info.path none).customCall⟩) := by
  simp only [processSession, hd, hr, he, hdec, hp]
  rfl

theorem processSession_renameCall_spec (env : Env) (s : Session) (c : JSStr × JSStr)
    (h : (processSession env s).renameCall = some c) :
    c.1 = s.id ∧ ∃ entry raw, env.details s.id = some entry ∧ entry.raw = some raw ∧
      raw.isEmpty = false := by
  rcases hd : env.details s.id with _ | entry
  · rw [processSession_details_none env s hd] at h
    simp at h
  · rcases hr : entry.raw with _ | raw
    · rw [processSession_raw_none env s entry hd hr] at h
      simp at h
    · rcases he : raw.isEmpty with _ | _
      · rcases hdec : env.decode raw with _ | decoded
        · simp [processSession, hd, hr, he, hdec] at h
        · rcases hp : parseRawRequest decoded with _ | info
          · simp [processSession, hd, hr, he, hdec, hp] at h
          · rw [processSession_of_parse env s entry raw decoded info hd hr he hdec hp] at h
            refine ⟨?_, entry, raw, rfl, hr, he⟩
            split at h
            · simp at h
            · split at h <;> (injection h with h2; rw [← h2])
      · have : raw = [] := by
          cases raw with
          | nil => rfl
          | cons a t => simp [List.isEmpty] at he
        rw [processSession_raw_empty env s entry hd (this ▸ hr)] at h
        simp at h

theorem mem_renames (env : Env) (p : JSStr × JSStr)
    (hp : p ∈ (checkAndRenameReplayTabs env).renames) :
    ∃ s, s ∈ env.sessions ∧ (processSession env s).renameCall = some p := by
  simp only [checkAndRenameReplayTabs] at hp
  split at hp
  · simp at hp
  · split at hp
    · simp at hp
    · simp only [List.mem_filterMap, List.mem_map] at hp
      obtain ⟨r, ⟨s, hs, rfl⟩, hr⟩ := hp
      exact ⟨s, (List.mem_filter.mp hs).1, hr⟩

theorem generateTabName_customCall_host
    (custom : Option (JSStr → JSStr → JSStr → CustomResult)) (m p : JSStr)
    (t : JSStr × JSStr × JSStr)
    (h : (generateTabName custom m p none).customCall = some t) : t.2.2 = [] := by
  obtain ⟨a, b, c⟩ := t
  rcases custom with _ | f
  · simp [generateTabName] at h
  · simp only [generateTabName, Option.getD] at h
    rcases hf : f m p [] with _ | _ | s <;> simp only [hf] at h
    · injection h with h2
      rw [← h2]
    · injection h with h2
      rw [← h2]
    · split at h <;> (injection h with h2; rw [← h2])

theorem skip_of_details_fail (env : Env) (s : Session)
    (h : env.details s.id = none ∨
      ∃ e, env.details s.id = some e ∧ (e.raw = none ∨ e.raw = some [])) :
    processSession env s = ⟨[LogMsg.noDetails s.id], none, none⟩ ∧
    ∀ n, (s.id, n) ∉ (checkAndRenameReplayTabs env).renames := by
  have hskip : ∀ s' : Session, s'.id = s.id →
      processSession env s' = ⟨[LogMsg.noDetails s'.id], none, none⟩ := by
    intro s' hs'
    rcases h with hd | ⟨e, hd, hraw⟩
    · exact processSession_details_none env s' (by rw [hs', hd])
    · rcases hraw with hr | hr
      · exact processSession_raw_none env s' e (by rw [hs', hd]) hr
      · exact processSession_raw_empty env s' e (by rw [hs', hd]) hr
  refine ⟨hskip s rfl, ?_⟩
  intro n hn
  obtain ⟨s', hmem, hcall⟩ := mem_renames env (s.id, n) hn
  obtain ⟨hid, -⟩ := processSession_renameCall_spec env s' (s.id, n) hcall
  rw [hskip s' hid.symm] at hcall
  simp at hcall

/-! ## Claim theorems -/

/-- Claim C1, counterexample: a detail fetch that THROWS is not logged and
skipped — `getSessionDetails` converts the thrown GraphQL attempt into the
hard-coded fallback entry, so in a cycle driven by the real
`getSessionDetails` (with `atob` behaving correctly on the fallback
payload) the session is decoded, parsed, the candidate
`"GET /api/fallback"` is computed and `renameSession` IS invoked for the
session; no skip is logged. -/
theorem claim_C1_counterexample :
    envC1x.details ("a".data) = some (fallbackEntry ("a".data)) ∧
    (checkAndRenameReplayTabs envC1x).renames =
      [(("a".data), ("GET /api/fallback".data))] ∧
    LogMsg.noDetails ("a".data) ∉ (checkAndRenameReplayTabs envC1x).logs := by
  decide

/-- Claim C1, amended: in a cycle whose detail layer for the session's id
is the real `getSessionDetails`, the logged skip (no candidate computed,
no rename call for that id anywhere in the cycle) happens exactly when the
function returns no entry — missing SDK/token or outer error
(`hasToken = false`), or an ok response with a missing entry — or returns
an entry without raw payload; a thrown fetch, a non-ok response or a
malformed body instead yields the synthetic fallback entry, whose raw
payload is present and non-empty, so those failure modes do NOT trigger
the skip. -/
theorem claim_C1_amended (env : Env) (hasToken : Bool)
    (fetchRes : JSStr → FetchOutcome) (s : Session)
    (hdet : env.details s.id = getSessionDetails hasToken fetchRes s.id) :
    ((hasToken = false ∨ fetchRes s.id = FetchOutcome.ok none ∨
        (∃ e, fetchRes s.id = FetchOutcome.ok (some e) ∧
          (e.raw = none ∨ e.raw = some []))) →
      processSession env s = ⟨[LogMsg.noDetails s.id], none, none⟩ ∧
      ∀ n, (s.id, n) ∉ (checkAndRenameReplayTabs env).renames) ∧
    ((fetchRes s.id = FetchOutcome.throws ∨ fetchRes s.id = FetchOutcome.notOk) →
      hasToken = true →
      env.details s.id = some (fallbackEntry s.id) ∧
      (fallbackEntry s.id).raw = some fallbackB64 ∧ fallbackB64 ≠ []) := by
  constructor
  · intro hfail
    apply skip_of_details_fail env s
    rcases hfail with htok | hok | ⟨e, hok, hraw⟩
    · left
      rw [hdet, htok]
      rfl
    · left
      rw [hdet]
      cases hasToken
      · rfl
      · simp [getSessionDetails, hok]
    · cases htk : hasToken
      · left
        rw [hdet, htk]
        rfl
      · right
        refine ⟨e, ?_, hraw⟩
        rw [hdet, htk]
        simp [getSessionDetails, hok]
  · intro hf htok
    refine ⟨?_, rfl, by decide⟩
    rw [hdet, htok]
    rcases hf with hf | hf <;> simp [getSessionDetails, hf]

/-- Witness for the amended C1: an ok response whose entry has no raw
payload is logged and skipped with no rename for that id. -/
theorem claim_C1_witness :
    processSession envC1 sC1 = ⟨[LogMsg.noDetails sC1.id], none, none⟩ ∧
    ∀ n, (sC1.id, n) ∉ (checkAndRenameReplayTabs envC1).renames :=
  (claim_C1_amended envC1 true (fun _ => FetchOutcome.ok (some ⟨none, none⟩)) sC1 rfl).1
    (Or.inr (Or.inr ⟨⟨none, none⟩, rfl, Or.inl rfl⟩))

/-- Claim C2, counterexample: for `M = "GET"` and the already-clean path
`P = "/" ++ 29 a's` (so `len(M)+1+len(P) = 34 > 30`), the default output
has length 30, not `len(M) + 1 + (27 - len(M)) + 3 = 31` as the claim
states. -/
theorem claim_C2_counterexample :
    cleanPath ("/aaaaaaaaaaaaaaaaaaaaaaaaaaaaa".data) = ("/aaaaaaaaaaaaaaaaaaaaaaaaaaaaa".data) ∧
    ("GET".data).length + 1 + ("/aaaaaaaaaaaaaaaaaaaaaaaaaaaaa".data).length > 30 ∧
    (defaultTabName ("GET".data) ("/aaaaaaaaaaaaaaaaaaaaaaaaaaaaa".data)).length ≠
      ("GET".data).length + 1 + (27 - ("GET".data).length) + 3 := by
  decide

/-- Claim C2, amended: for every method `M` and cleaned path `P`
(`cleanPath P = P`) with `len(M)+1+len(P) > 30`, the default output is
`M ++ " " ++ P.take (30 - len(M) - 4) ++ "..."`, its length is exactly
`len(M) + 1 + (26 - len(M)) + 3` (natural subtraction), and it ends with
`"..."` — i.e. the truncation keeps the first `30 - len(M) - 4`
characters of the cleaned path, and the claimed `27 - len(M)` is off by
one. -/
theorem claim_C2_amended (M P : JSStr) (hP : cleanPath P = P)
    (h : M.length + 1 + P.length > 30) :
    defaultTabName M P = M ++ ' ' :: (P.take (30 - M.length - 4) ++ ('.' :: '.' :: '.' :: [])) ∧
    (defaultTabName M P).length = M.length + 1 + (26 - M.length) + 3 ∧
    ('.' :: '.' :: '.' :: []) <:+ defaultTabName M P := by
  have hcond : (M ++ ' ' :: cleanPath P).length > 30 := by
    rw [hP, List.length_append, List.length_cons]
    omega
  have hdef : defaultTabName M P =
      M ++ ' ' :: ((cleanPath P).take (30 - M.length - 4) ++ ('.' :: '.' :: '.' :: [])) := by
    unfold defaultTabName
    dsimp only
    rw [if_pos hcond]
  rw [hP] at hdef
  refine ⟨hdef, ?_, ?_⟩
  · rw [hdef]
    simp only [List.length_append, List.length_cons, List.length_take, List.length_nil]
    have hmin : min (30 - M.length - 4) P.length = 30 - M.length - 4 :=
      Nat.min_eq_left (by omega)
    rw [hmin]
    omega
  · rw [hdef]
    exact ⟨M ++ ' ' :: P.take (30 - M.length - 4), by simp⟩

/-- Witness for the amended C2 at `M = "GET"` and a 30-character clean
path. -/
theorem claim_C2_witness :
    defaultTabName ("GET".data) ("/bbbbbbbbbbbbbbbbbbbbbbbbbbbbb".data) =
      ("GET".data) ++ ' ' :: (("/bbbbbbbbbbbbbbbbbbbbbbbbbbbbb".data).take
        (30 - ("GET".data).length - 4) ++ ('.' :: '.' :: '.' :: [])) ∧
    (defaultTabName ("GET".data) ("/bbbbbbbbbbbbbbbbbbbbbbbbbbbbb".data)).length =
      ("GET".data).length + 1 + (26 - ("GET".data).length) + 3 ∧
    ('.' :: '.' :: '.' :: []) <:+
      defaultTabName ("GET".data) ("/bbbbbbbbbbbbbbbbbbbbbbbbbbbbb".data) :=
  claim_C2_amended ("GET".data) ("/bbbbbbbbbbbbbbbbbbbbbbbbbbbbb".data) (by decide) (by decide)

/-- Claim C3, counterexample: the persisted known set does NOT grow
monotonically across cycles — a known id absent from the current listing
is dropped by the end-of-cycle bulk persist `Known := ids(S)`. -/
theorem claim_C3_counterexample :
    ("a".data) ∈ envC3.known ∧
    (checkAndRenameReplayTabs envC3).savedKnown = some [("b".data)] ∧
    ("a".data) ∉ [("b".data)] := by
  decide

/-- Claim C3, amended: per-cycle monotonicity holds only for ids still
present in the cycle's listing — if a completed cycle persisted a known
set, then every previously known id that appears in the listing snapshot
is still in the persisted set (ids absent from the listing are dropped,
since the cycle persists exactly `ids(S)`). -/
theorem claim_C3_amended (env : Env) (saved : List JSStr) (i : JSStr)
    (hsave : (checkAndRenameReplayTabs env).savedKnown = some saved)
    (hknown : i ∈ env.known) (hlisted : i ∈ env.sessions.map Session.id) :
    i ∈ saved := by
  simp only [checkAndRenameReplayTabs] at hsave
  split at hsave
  · simp at hsave
  · split at hsave <;> (simp at hsave; subst hsave; exact hlisted)

/-- Witness for the amended C3: an id both known and listed survives the
cycle. -/
theorem claim_C3_witness : ("a".data) ∈ [("a".data)] :=
  claim_C3_amended envC3w [("a".data)] ("a".data) (by decide) (by decide) (by decide)

/-- Claim C4: for every completed sync cycle whose listing is non-empty,
the cycle persists a known set containing every id of the listing
snapshot, regardless of the outcomes of all per-item detail fetches,
decodes, parses and renames (all quantified inside `env`). -/
theorem claim_C4 (env : Env) (h : env.sessions ≠ []) :
    ∃ saved, (checkAndRenameReplayTabs env).savedKnown = some saved ∧
      ∀ i ∈ env.sessions.map Session.id, i ∈ saved := by
  have he : env.sessions.isEmpty = false := list_isEmpty_false _ h
  refine ⟨env.sessions.map Session.id, ?_, fun i hi => hi⟩
  simp only [checkAndRenameReplayTabs, he]
  split
  · rename_i hx
    exact Bool.noConfusion hx
  · split <;> rfl

/-- Witness for C4 at a concrete one-session environment. -/
theorem claim_C4_witness :
    ∃ saved, (checkAndRenameReplayTabs envC4).savedKnown = some saved ∧
      ∀ i ∈ envC4.sessions.map Session.id, i ∈ saved :=
  claim_C4 envC4 (by decide)

/-- Claim C5: a custom naming source whose evaluation throws yields
exactly the default-algorithm output and logs exactly one fallback notice
(the "using default function" message; the accompanying error message is a
separate `customError` event), and for every custom source, method, path
and host the generator's output is a non-empty string (the embedding is
total, reflecting that the generator never throws). -/
theorem claim_C5 :
    (∀ (f : JSStr → JSStr → JSStr → CustomResult) (m p : JSStr) (ho : Option JSStr),
      f m p (ho.getD []) = CustomResult.throws →
      (generateTabName (some f) m p ho).name = defaultTabName m p ∧
      (generateTabName (some f) m p ho).logs.count LogMsg.usingDefault = 1) ∧
    (∀ (custom : Option (JSStr → JSStr → JSStr → CustomResult)) (m p : JSStr)
      (ho : Option JSStr), (generateTabName custom m p ho).name ≠ []) := by
  constructor
  · intro f m p ho hf
    have hg : generateTabName (some f) m p ho =
        ⟨defaultTabName m p, [.customError, .usingDefault], some (m, p, ho.getD [])⟩ := by
      simp only [generateTabName, hf]
    rw [hg]
    exact ⟨rfl, rfl⟩
  · intro custom m p ho
    rcases custom with _ | f
    · simpa [generateTabName] using defaultTabName_ne_nil m p
    · simp only [generateTabName]
      rcases hf : f m p (ho.getD []) with _ | _ | s <;> simp only [hf]
      · exact defaultTabName_ne_nil m p
      · exact defaultTabName_ne_nil m p
      · split
        · exact defaultTabName_ne_nil m p
        · rename_i hne
          intro hc
          have hc2 : jsTrim s = [] := hc
          exact hne (by rw [hc2]; rfl)

/-- Witness for C5: a throwing custom function at concrete inputs falls
back to the default output with one fallback notice, and the default-only
generator output is non-empty. -/
theorem claim_C5_witness :
    ((generateTabName (some (fun _ _ _ => CustomResult.throws)) ("GET".data) ("/a".data)
        none).name = defaultTabName ("GET".data) ("/a".data) ∧
      (generateTabName (some (fun _ _ _ => CustomResult.throws)) ("GET".data) ("/a".data)
        none).logs.count LogMsg.usingDefault = 1) ∧
    (generateTabName none ("GET".data) ("/a".data) none).name ≠ [] :=
  ⟨claim_C5.1 (fun _ _ _ => CustomResult.throws) ("GET".data) ("/a".data) none rfl,
    claim_C5.2 none ("GET".data) ("/a".data) none⟩

/-- Claim C6: inside a sync cycle, if the computed candidate name equals
the session's current name, `renameSession` is not invoked for that
session. -/
theorem claim_C6 (env : Env) (s : Session) (entry : Entry) (raw decoded : JSStr)
    (info : ParsedRequest)
    (hd : env.details s.id = some entry) (hr : entry.raw = some raw) (hne : raw ≠ [])
    (hdec : env.decode raw = some decoded) (hp : parseRawRequest decoded = some info)
    (hsame : currentNameOf entry s =
      (generateTabName env.custom info.method info.path none).name) :
    (processSession env s).renameCall = none := by
  rw [processSession_of_parse env s entry raw decoded info hd hr
    (list_isEmpty_false raw hne) hdec hp]
  rw [if_pos hsame]

/-- Witness for C6 at a concrete session already named `GET /foo`. -/
theorem claim_C6_witness : (processSession envC6 sC6).renameCall = none :=
  claim_C6 envC6 sC6 entryC6 ("R".data) ("GET /foo HTTP/1.1\nHost: h\n".data)
    ⟨"GET".data, "/foo".data, "h".data⟩ (by decide) (by decide) (by decide)
    (by decide) (by decide) (by decide)

/-- Claim C7: the parser is total — every input yields a record or the
failure signal `none` (no exception escapes) — and the empty string, any
input with no whitespace at all (whose request line therefore has fewer
than two tokens), and an input of only blank lines each yield `none`. -/
theorem claim_C7 :
    parseRawRequest [] = none ∧
    parseRawRequest ("\n\n  \n".data) = none ∧
    (∀ l : JSStr, (∀ c ∈ l, isJsWhitespace c = false) → parseRawRequest l = none) ∧
    (∀ raw : JSStr, parseRawRequest raw = none ∨ ∃ r, parseRawRequest raw = some r) := by
  refine ⟨by decide, by decide, ?_, ?_⟩
  · intro l hl
    by_cases hnil : l = []
    · subst hnil
      rfl
    · have hR : ∀ c ∈ l, c ≠ '\r' := by
        intro c hc hcr
        have hx := hl c hc
        rw [hcr] at hx
        simp [isJsWhitespace] at hx
      have hN : ∀ c ∈ l, c ≠ '\n' := by
        intro c hc hcn
        have hx := hl c hc
        rw [hcn] at hx
        simp [isJsWhitespace] at hx
      have h1 : normalizeNewlines l = l := normalizeNewlines_eq_self_of_no_cr l hR
      have h2 : splitLines l = [l] := splitLines_eq_of_no_lf l hN
      have h3 : jsTrim l = l := jsTrim_eq_self_of_no_ws l hl
      have h4 : splitWs l = [l] := splitWs_eq_of_no_ws l hl
      have hle : l.isEmpty = false := list_isEmpty_false l hnil
      simp [parseRawRequest, h1, h2, h3, h4, hle, List.find?]
  · intro raw
    rcases hres : parseRawRequest raw with _ | r
    · exact Or.inl rfl
    · exact Or.inr ⟨r, rfl⟩

/-- Witness for C7 at a concrete single-token input. -/
theorem claim_C7_witness : parseRawRequest ("GARBAGE".data) = none :=
  claim_C7.2.2.1 ("GARBAGE".data) (by decide)

/-- Claim C8: the parser's host field is computed by scanning the lines in
order for the first whose trimmed form starts case-insensitively with
`host:`, returning the trimmed remainder after the colon (empty if no such
line); whenever the parser returns a record, its host equals that scan of
the normalized lines; and the concrete raw text with
`"Host:   example.com\r\n"` among other headers parses with
`host = "example.com"`. -/
theorem claim_C8 :
    (∀ lines : List JSStr, findHost lines =
      (match lines.find? (fun l => isHostLine (jsTrim l)) with
        | some l => jsTrim ((jsTrim l).drop 5)
        | none => [])) ∧
    (∀ (raw : JSStr) (info : ParsedRequest), parseRawRequest raw = some info →
      info.host = findHost (splitLines (normalizeNewlines raw))) ∧
    parseRawRequest ("GET /x HTTP/1.1\r\nAccept: a\r\nHost:   example.com\r\nX: y\r\n\r\n".data) =
      some ⟨"GET".data, "/x".data, "example.com".data⟩ := by
  refine ⟨?_, ?_, by decide⟩
  · intro lines
    induction lines with
    | nil => rfl
    | cons a t ih =>
      by_cases ha : isHostLine (jsTrim a)
      · simp [findHost, ha, List.find?_cons_of_pos]
      · simp only [findHost]
        rw [if_neg (by simpa using ha), ih, List.find?_cons_of_neg]
        simpa using ha
  · intro raw info hp
    simp only [parseRawRequest] at hp
    split at hp
    · simp at hp
    · split at hp
      · simp at hp
      · split at hp
        · simp at hp
        · split at hp
          · simp at hp
          · split at hp
            · simp at hp
            · injection hp with h2
              rw [← h2]

/-- Witness for C8 applying the host characterization at the concrete
example raw text. -/
theorem claim_C8_witness :
    (⟨"GET".data, "/x".data, "example.com".data⟩ : ParsedRequest).host =
      findHost (splitLines (normalizeNewlines
        ("GET /x HTTP/1.1\r\nAccept: a\r\nHost:   example.com\r\nX: y\r\n\r\n".data))) :=
  claim_C8.2.1 ("GET /x HTTP/1.1\r\nAccept: a\r\nHost:   example.com\r\nX: y\r\n\r\n".data)
    ⟨"GET".data, "/x".data, "example.com".data⟩ (by decide)

/-- Claim C9, counterexample: `cleanPath` does not always strip from the
first `?`/`#` onward — in JS, `/[?#].*$/` only matches a `?`/`#` with no
later line terminator, so for the path `"/a?b\nc"` the code keeps `b` and
`c` (yielding `"/abc"` after filtering) while the claim's description
yields `"/a"`. -/
theorem claim_C9_counterexample :
    cleanPath ("/a?b\nc".data) = ("/abc".data) ∧
    specClean ("/a?b\nc".data) = ("/a".data) ∧
    cleanPath ("/a?b\nc".data) ≠ specClean ("/a?b\nc".data) := by
  decide

/-- Claim C9, amended: for every path containing no line terminator (in
particular every path the request parser can produce, since `\s+`-split
tokens contain no line terminators), the cleaned path is obtained by
stripping everything from the first `?` or `#` onward and then removing
every character outside `[A-Za-z0-9/_.-]`; the example `"/a/b?x=1#frag"`
cleans to `"/a/b"`. -/
theorem claim_C9_amended :
    (∀ p : JSStr, (∀ c ∈ p, isLineTerminator c = false) → cleanPath p = specClean p) ∧
    cleanPath ("/a/b?x=1#frag".data) = ("/a/b".data) := by
  refine ⟨?_, by decide⟩
  intro p h
  unfold cleanPath specClean
  rw [jsStripQF_eq_specStrip p h]

/-- Witness for the amended C9 at a concrete path. -/
theorem claim_C9_witness : cleanPath ("/q?r".data) = specClean ("/q?r".data) :=
  claim_C9_amended.1 ("/q?r".data) (by decide)

/-- Claim C10: the sync cycle invokes the name generator without a host
argument (`generateTabName(requestInfo.method, requestInfo.path)`), so
whenever the custom naming function is actually called during session
processing, the host argument it receives is the empty string — even when
the parser extracted a non-empty Host header. -/
theorem claim_C10 (env : Env) (s : Session) (args : JSStr × JSStr × JSStr)
    (h : (processSession env s).customCall = some args) : args.2.2 = [] := by
  rcases hd : env.details s.id with _ | entry
  · rw [processSession_details_none env s hd] at h
    simp at h
  · rcases hr : entry.raw with _ | raw
    · rw [processSession_raw_none env s entry hd hr] at h
      simp at h
    · rcases he : raw.isEmpty with _ | _
      · rcases hdec : env.decode raw with _ | decoded
        · simp [processSession, hd, hr, he, hdec] at h
        · rcases hp : parseRawRequest decoded with _ | info
          · simp [processSession, hd, hr, he, hdec, hp] at h
          · rw [processSession_of_parse env s entry raw decoded info hd hr he hdec hp] at h
            have hcc : (generateTabName env.custom info.method info.path none).customCall =
                some args := by
              split at h
              · exact h
              · split at h <;> exact h
            exact generateTabName_customCall_host env.custom info.method info.path args hcc
      · have hraw : raw = [] := by
          cases raw with
          | nil => rfl
          | cons a t => simp [List.isEmpty] at he
        rw [processSession_raw_empty env s entry hd (hraw ▸ hr)] at h
        simp at h

/-- Witness for C10: in `envC10` the raw request carries
`Host: example.com`, yet the throwing custom function is called with an
empty host argument. -/
theorem claim_C10_witness :
    (processSession envC10 sC10).customCall = some (("GET".data, "/p".data, ([] : JSStr))) ∧
    (("GET".data, "/p".data, ([] : JSStr)) : JSStr × JSStr × JSStr).2.2 = [] :=
  ⟨by decide, claim_C10 envC10 sC10 ("GET".data, "/p".data, ([] : JSStr)) (by decide)⟩

end TabRenamer
